import Mathlib

/-!
Verification of the mwalib C sources (args.c, gpubox.c, fitsreader.c, global.h,
gpubox.h, and the example program mwalib-print-context.c) against the
natural-language specification.  Each C function relevant to the claims is
shallowly embedded as an executable Lean definition; machine integers are
modelled as Nat/Int with explicit wraparound where it matters, and fallible C
functions (returning EXIT_SUCCESS/EXIT_FAILURE plus an errorMessage buffer)
are modelled as Except String results carrying the message text that the C
code formats.
-/

/-- Decidable equality for Except results, so that concrete runs of the
    embedded functions can be checked by the kernel. -/
instance exceptDecEq {e a : Type} [DecidableEq e] [DecidableEq a] :
    DecidableEq (Except e a)
  | .error x, .error y =>
      if h : x = y then .isTrue (by rw [h]) else .isFalse (by intro hc; cases hc; exact h rfl)
  | .error _, .ok _ => .isFalse (by intro hc; cases hc)
  | .ok _, .error _ => .isFalse (by intro hc; cases hc)
  | .ok x, .ok y =>
      if h : x = y then .isTrue (by rw [h]) else .isFalse (by intro hc; cases hc; exact h rfl)

/-- global.h line 9: maximum character length of an error message. -/
def MWALIB_ERROR_MESSAGE_LEN : Nat := 2048

/-- global.h line 12: maximum number of gpubox batches (size of the C
    batch_counts array). -/
def MWALIB_MAX_GPUBOX_BATCHES : Nat := 10

/-- global.h line 13: maximum number of coarse channels allowed for. -/
def MWALIB_MAX_COARSE_CHANNELS : Nat := 50

/-- gpubox.h lines 7-10: the fixed legacy PFB reordering table. -/
def PFB_MAP : List Nat :=
  [0, 16, 32, 48, 1, 17, 33, 49, 2, 18, 34, 50, 3, 19, 35, 51,
   4, 20, 36, 52, 5, 21, 37, 53, 6, 22, 38, 54, 7, 23, 39, 55,
   8, 24, 40, 56, 9, 25, 41, 57, 10, 26, 42, 58, 11, 27, 43, 59,
   12, 28, 44, 60, 13, 29, 45, 61, 14, 30, 46, 62, 15, 31, 47, 63]

/-- args.c lines 161-166 (process_args): the baseline count computed from the
    metafits NINPUTS keyword.  The C code does
      num_inputs /= 2;
      obs->num_baselines = num_inputs / 2 * (num_inputs - 1);
    with C integer division evaluated left to right. -/
def numBaselinesArgs (ninputs : Nat) : Nat :=
  let numInputs := ninputs / 2
  numInputs / 2 * (numInputs - 1)

/-- gpubox.c line 344 (determine_num_scans): bytes needed for a single scan,
      num_chans * obs->gpubox_filename_count * (num_ants + 1) * num_ants / 2 * 4
    with C left-to-right evaluation and integer division.  Its baseline factor
    is (num_ants + 1) * num_ants / 2, i.e. autos plus cross correlations. -/
def scan_size (numChans gpuboxCount numAnts : Nat) : Nat :=
  numChans * gpuboxCount * (numAnts + 1) * numAnts / 2 * 4

/-- The literal head of the gpubox.c line 113 snprintf format string
    "Failed to determine the gpubox batch number for %s". -/
def batchNumberFailHead : String := "Failed to determine the gpubox batch number for "

/-- The literal that args.c line 198 appends with an unbounded sprintf after
    determine_gpubox_batches fails. -/
def determineBatchesNote : String := " (determine_gpubox_batches)"

/-- snprintf(buf, bound, ...) with a formatted message of length msgLen stores
    min msgLen (bound - 1) characters followed by a terminating NUL, so
    strlen(buf) afterwards is min msgLen (bound - 1). -/
def snprintfStored (bound msgLen : Nat) : Nat := min msgLen (bound - 1)

/-- sprintf(buf + startOffset, ...) with a formatted message of length msgLen
    writes msgLen characters plus the terminating NUL, so the number of bytes
    of buf touched (the one-past-the-last written index) is
    startOffset + msgLen + 1.  sprintf imposes no bound of its own. -/
def sprintfBytesTouched (startOffset msgLen : Nat) : Nat := startOffset + msgLen + 1

/-- The process_args failure path for a gpubox filename that matches neither
    naming format: gpubox.c line 113 formats the error with
    snprintf(errorMessage, MWALIB_ERROR_MESSAGE_LEN, "Failed to determine the
    gpubox batch number for %s", filename), then args.c line 198 appends
    " (determine_gpubox_batches)" with
    sprintf(errorMessage + strlen(errorMessage), ...).  This definition gives
    the total number of errorMessage bytes touched by that path as a function
    of the filename length. -/
def processArgsBatchFailBytesTouched (filenameLen : Nat) : Nat :=
  sprintfBytesTouched
    (snprintfStored MWALIB_ERROR_MESSAGE_LEN (batchNumberFailHead.length + filenameLen))
    determineBatchesNote.length

/-- mwalib-print-context.c lines 192-208: the expression
      size_t index = 0 ? count == 0 : count - 1;
    (the same shape is used for num_baselines, num_rf_inputs, num_ants,
    num_metafits_coarse_chans and num_metafits_timesteps).  The condition is
    the int constant 0, i.e. false; the then-branch would be the int comparison
    count == 0 (0 or 1) converted to size_t; the else-branch is the size_t
    subtraction count - 1, which wraps modulo 2^64.  count is a size_t value,
    so count < 2^64. -/
def lastValidIndex (count : Nat) : Nat :=
  if (0 : Int) ≠ 0 then (if count = 0 then 1 else 0)
  else (count + (2 ^ 64 - 1)) % 2 ^ 64

/-- The strsep delimiter set " ,@" of fitsreader.c line 191. -/
def isDelim (c : Char) : Bool := c = ',' || c = ' ' || c = '@'

/-- The strsep(&string, " ,@") loop of fitsreader.c line 191: cut the character
    buffer at every delimiter, keeping empty tokens between adjacent delimiters
    and at either end, exactly as strsep does (strsep on an empty string yields
    one empty token). -/
def splitTokensAux (cur : List Char) : List Char → List (List Char)
  | [] => [cur.reverse]
  | c :: cs => if isDelim c then cur.reverse :: splitTokensAux [] cs else splitTokensAux (c :: cur) cs

/-- The token list that the fitsreader.c line 191 strsep loop walks over for a
    given raw keyword string. -/
def splitTokens (raw : String) : List (List Char) := splitTokensAux [] raw.data

/-- The C locale isspace set skipped by a scanf %d conversion. -/
def isCSpace (c : Char) : Bool :=
  c = ' ' || c = '\t' || c = '\n' || c = '\r' || c = '\x0b' || c = '\x0c'

/-- Leading-whitespace skipping performed by the %d conversion of sscanf. -/
def dropCSpaces : List Char → List Char
  | [] => []
  | c :: cs => if isCSpace c then dropCSpaces cs else c :: cs

/-- Value of the longest leading run of decimal digits, most significant
    first, accumulated the way scanf digests digits. -/
def digitRunVal : List Char → Nat → Nat
  | c :: cs, acc => if c.isDigit then digitRunVal cs (acc * 10 + (c.toNat - 48)) else acc
  | [], acc => acc

/-- sscanf(found, "%d%*c", &x) of fitsreader.c line 192, as a token parser:
    the %d conversion skips leading whitespace, accepts an optional sign and
    then requires at least one decimal digit; trailing characters are ignored
    (the suppressed %*c assigns nothing and cannot change the return value
    from 1).  Returns some value iff sscanf would return 1 for this token. -/
def parseCInt (cs : List Char) : Option Int :=
  match dropCSpaces cs with
  | [] => none
  | c :: rest =>
      if c = '-' then
        match rest with
        | d :: _ => if d.isDigit then some (-(digitRunVal rest 0 : Int)) else none
        | [] => none
      else if c = '+' then
        match rest with
        | d :: _ => if d.isDigit then some ((digitRunVal rest 0 : Int)) else none
        | [] => none
      else if c.isDigit then some ((digitRunVal (c :: rest) 0 : Int)) else none

/-- The fitsreader.c lines 191-199 loop: parse every token in order; the first
    token for which sscanf does not return 1 aborts the whole call (the C
    returns EXIT_FAILURE from inside the loop), otherwise all parsed values are
    stored consecutively in int_array. -/
def parseAll : List (List Char) → Option (List Int)
  | [] => some []
  | t :: ts =>
      match parseCInt t, parseAll ts with
      | some v, some vs => some (v :: vs)
      | _, _ => none

/-- The distinct error of fitsreader.c lines 182-188 for a raw keyword string
    longer than the caller-declared buffer size ("%d" rendered with the
    declared size). -/
def overlongMsg (keyword : String) (stringSize : Nat) : String :=
  "cfitsio-read long string associated with fits key " ++ keyword ++
    " is too long for supplied input string (size: " ++ toString stringSize ++
    ") (get_fits_comma_delimited_ints)"

/-- The error of fitsreader.c lines 194-196 for a token sscanf cannot parse. -/
def parseFailMsg : String :=
  "Failed to parse int from string in fits file (get_fits_comma_delimited_ints)"

/-- get_fits_comma_delimited_ints (fitsreader.c lines 167-202).
    raw is the full keyword string held by the FITS file (whose total length
    cfitsio reports as long_string_size); stringSize is the caller-declared
    buffer size (the C string_size parameter); c0 is the incoming value of the
    *int_count out-parameter, which the C function increments without
    initialising (args.c passes a field it never zeroed; 0 is the intended
    incoming value).  On success the result carries the final *int_count and
    the list of values stored in int_array in order. -/
def get_fits_comma_delimited_ints (keyword : String) (stringSize : Nat) (raw : String)
    (c0 : Nat) : Except String (Nat × List Int) :=
  if raw.length > stringSize then .error (overlongMsg keyword stringSize)
  else
    match parseAll (splitTokens raw) with
    | some vals => .ok (c0 + (splitTokens raw).length, vals)
    | none => .error parseFailMsg

/-- Outcome of the two sscanf calls of gpubox.c lines 108-111 on one gpubox
    filename: the new format "%d_%d_gpubox%d_%d.fits" assigns 4 items (the
    last being the batch number), the old format "%d_%d_gpubox%d.fits" assigns
    3, and a filename matching neither is a hard error.  The obsid, timestamp
    and gpubox-number fields are read into dummies the function never uses, so
    only the batch number is retained here. -/
inductive GpuboxNameParse where
  | newFmt (batch : Nat)
  | oldFmt
  | bad
deriving DecidableEq, Repr

/-- A gpubox filename together with its sscanf classification. -/
structure GpuboxFilename where
  raw : String
  parse : GpuboxNameParse
deriving DecidableEq, Repr

/-- True iff the filename matches the new (batched) format, i.e. the first
    sscanf of gpubox.c line 108 returns 4. -/
def isNewFmt : GpuboxFilename → Bool
  | ⟨_, .newFmt _⟩ => true
  | ⟨_, .oldFmt⟩ => false
  | ⟨_, .bad⟩ => false

/-- True iff the filename matches neither format (both sscanf calls fail). -/
def isBad : GpuboxFilename → Bool
  | ⟨_, .newFmt _⟩ => false
  | ⟨_, .oldFmt⟩ => false
  | ⟨_, .bad⟩ => true

/-- The format code gpubox.c line 96 records: 1 for the old format, 2 for the
    new format (0 meaning not yet established / unparsable). -/
def fmtCode : GpuboxFilename → Nat
  | ⟨_, .newFmt _⟩ => 2
  | ⟨_, .oldFmt⟩ => 1
  | ⟨_, .bad⟩ => 0

/-- The batch number sscanf assigns for a new-format filename (unused junk 0
    for the other cases, mirroring the dummy-filled C variable). -/
def batchOf : GpuboxFilename → Nat
  | ⟨_, .newFmt b⟩ => b
  | ⟨_, .oldFmt⟩ => 0
  | ⟨_, .bad⟩ => 0

/-- The error text of gpubox.c lines 113-114 for an unparsable filename. -/
def badNameMsg (name : String) : String := batchNumberFailHead ++ name

/-- The error text of gpubox.c lines 139-140 for a filename whose format
    disagrees with the previously established one. -/
def formatMismatchMsg (name : String) : String :=
  "The batch number format of " ++ name ++ " disagrees with other gpubox files!"

/-- The mutable locals of the gpubox.c lines 95-143 scanning loop:
    obs->gpubox_batch_count (largest batch number seen), the format variable,
    the batch variable (which keeps its previous value for old-format files,
    since the 3-item sscanf never assigns it), and the batch_counts array
    (modelled as an unbounded function; the C array has
    MWALIB_MAX_GPUBOX_BATCHES entries, so the model is faithful for batch
    numbers below that bound). -/
structure BatchScan where
  batchCount : Nat
  format : Nat
  batch : Nat
  counts : Nat → Nat

/-- One iteration of the gpubox.c lines 107-143 loop, in the C order: parse
    the filename (error if unparsable), raise gpubox_batch_count for a
    new-format batch number exceeding it, increment batch_counts[batch], then
    establish or check the format (error on disagreement). -/
def scanStep (st : BatchScan) (f : GpuboxFilename) : Except String BatchScan :=
  match f.parse with
  | .bad => .error (badNameMsg f.raw)
  | .newFmt b =>
      if st.format = 0 then
        .ok ⟨if b > st.batchCount then b else st.batchCount, 2, b,
             fun i => if i = b then st.counts i + 1 else st.counts i⟩
      else if st.format ≠ 2 then .error (formatMismatchMsg f.raw)
      else
        .ok ⟨if b > st.batchCount then b else st.batchCount, st.format, b,
             fun i => if i = b then st.counts i + 1 else st.counts i⟩
  | .oldFmt =>
      if st.format = 0 then
        .ok ⟨st.batchCount, 1, st.batch,
             fun i => if i = st.batch then st.counts i + 1 else st.counts i⟩
      else if st.format ≠ 1 then .error (formatMismatchMsg f.raw)
      else
        .ok ⟨st.batchCount, st.format, st.batch,
             fun i => if i = st.batch then st.counts i + 1 else st.counts i⟩

/-- The whole gpubox.c lines 107-143 loop with its early returns. -/
def scanFiles : BatchScan → List GpuboxFilename → Except String BatchScan
  | st, [] => Except.ok st
  | st, f :: fs =>
      match scanStep st f with
      | Except.error e => Except.error e
      | Except.ok st2 => scanFiles st2 fs

/-- printf %02d formatting of the batch index in the mismatch message. -/
def format02d (i : Nat) : String := if i < 10 then "0" ++ toString i else toString i

/-- The error text of gpubox.c lines 179-181:
    "The batch number counts do not match! (%d for 00, %d for %02d)". -/
def batchMismatchMsg (c0 ci i : Nat) : String :=
  "The batch number counts do not match! (" ++ toString c0 ++ " for 00, " ++
    toString ci ++ " for " ++ format02d i ++ ")"

/-- The gpubox.c lines 164-184 allocation loop consistency check: walking
    i = 0, 1, ... in order, the first i > 0 with
    batch_counts[i] != batch_counts[0] aborts with the mismatch message
    (the malloc-failure branches of that loop are not modelled). -/
def checkBatchCounts (counts : Nat → Nat) (nbatches : Nat) : Except String Unit :=
  match (List.range nbatches).find? (fun i => decide (0 < i) && decide (counts i ≠ counts 0)) with
  | some i => .error (batchMismatchMsg (counts 0) (counts i) i)
  | none => .ok ()

/-- determine_gpubox_batches (gpubox.c lines 89-206): scan all filenames,
    increment the largest batch number by one to get the batch count, and
    check that every batch holds as many files as batch 0.  On success the
    batch count is returned (the second population loop of lines 190-202 only
    groups pointers and cannot fail, so it is not modelled). -/
def determine_gpubox_batches (fs : List GpuboxFilename) : Except String Nat :=
  match scanFiles ⟨0, 0, 0, fun _ => 0⟩ fs with
  | .error e => .error e
  | .ok st =>
      match checkBatchCounts st.counts (st.batchCount + 1) with
      | .error e => .error e
      | .ok _ => .ok (st.batchCount + 1)

/-- The largest batch number in a file list, computed the way the scanning
    loop accumulates obs->gpubox_batch_count (for all-new-format lists). -/
def maxBatchOf (fs : List GpuboxFilename) : Nat :=
  fs.foldl (fun a f => if batchOf f > a then batchOf f else a) 0

/-- How many files of the list carry batch number i (for all-new-format
    lists this is what batch_counts[i] holds after the scanning loop). -/
def batchFileCount (fs : List GpuboxFilename) (i : Nat) : Nat :=
  fs.countP (fun f => batchOf f == i)

/-- The scalar metafits keywords process_args reads (through the abstract
    fitsreader interface): GPSTIME (stored as the obsid), NINPUTS, and the raw
    CHANNELS keyword string handed to get_fits_comma_delimited_ints. -/
structure Metafits where
  gpstime : Int
  ninputs : Nat
  channelsRaw : String
deriving DecidableEq, Repr

/-- The mwaObsContext_s fields process_args has populated by the time it
    passes the coarse-channel count validation of args.c lines 220-228. -/
structure ObsContextPart where
  obsid : Int
  num_pols : Nat
  num_baselines : Nat
  gpubox_filename_count : Nat
  gpubox_batch_count : Nat
  num_coarse_channels : Nat
  coarse_channels : List Int
deriving DecidableEq, Repr

/-- The error text of args.c lines 224-227. -/
def channelMismatchMsg : String :=
  "The number of gpubox files does not match the number of coarse-band channels specified by the metafits!"

/-- process_args (args.c lines 117-243), modelled through the coarse-channel
    count validation of lines 220-228: the metafits filename check, the
    gpubox-file presence check, the GPSTIME/NINPUTS reads, the num_baselines
    computation, determine_gpubox_batches (whose error gets
    " (determine_gpubox_batches)" appended, line 198), the CHANNELS parse with
    declared string size 1023 (line 214; the *int_count out-parameter
    obs->num_coarse_channels is never initialised by the C code, 0 being the
    intended incoming value), and the check that
    gpubox_filename_count / gpubox_batch_count equals num_coarse_channels.
    The later steps (determine_gpubox_fine_channels, determine_obs_times) only
    read further file data after this check has passed, so every error this
    model produces is produced verbatim by the C function.  The fitsio open
    and malloc failure branches are not modelled. -/
def process_args (metafitsFilename : String) (m : Metafits)
    (files : List GpuboxFilename) : Except String ObsContextPart :=
  if metafitsFilename.length = 0 then .error "Metafits filename missing"
  else if files.length = 0 then .error "gpubox / mwax fits files missing"
  else
    match determine_gpubox_batches files with
    | .error e => .error (e ++ determineBatchesNote)
    | .ok nbatches =>
        match get_fits_comma_delimited_ints "CHANNELS" 1023 m.channelsRaw 0 with
        | .error e => .error e
        | .ok (count, chans) =>
            if files.length / nbatches ≠ count then .error channelMismatchMsg
            else
              .ok { obsid := m.gpstime
                    num_pols := 4
                    num_baselines := numBaselinesArgs m.ninputs
                    gpubox_filename_count := files.length
                    gpubox_batch_count := nbatches
                    num_coarse_channels := count
                    coarse_channels := chans }

/-- The per-file timestamps determine_obs_times reads through the fitsreader:
    TIME (long long) and MILLITIM (int) of the first HDU of the file (where every
    file is positioned when the function runs) and of its last HDU (reached
    via get_fits_hdu_count / move_to_fits_hdu). -/
structure GpuboxFileTimes where
  firstTime : Int
  firstMilli : Int
  lastTime : Int
  lastMilli : Int
deriving DecidableEq, Repr

/-- gpubox.c line 266: this_start_time * 1000 + this_start_milli_time for a
    first-batch file. -/
def startVal (f : GpuboxFileTimes) : Int := f.firstTime * 1000 + f.firstMilli

/-- gpubox.c line 295: this_end_time * 1000 + this_end_milli_time for a
    last-batch file. -/
def endVal (f : GpuboxFileTimes) : Int := f.lastTime * 1000 + f.lastMilli

/-- gpubox.c lines 267-269: keep the later of the accumulated start time
    (initialised to 0) and the start time of this file. -/
def maxStep (x y : Int) : Int := if y > x then y else x

/-- gpubox.c lines 296-298: keep the end time of this file if nothing has been
    recorded yet (the 0 sentinel) or if it is earlier than the accumulator. -/
def minStepC (x y : Int) : Int := if x = 0 ∨ y < x then y else x

/-- The obs->start_time_milliseconds / obs->end_time_milliseconds pair. -/
structure ObsTimes where
  start_time_milliseconds : Int
  end_time_milliseconds : Int
deriving DecidableEq, Repr

/-- One iteration of the gpubox.c lines 251-305 loop: fold the start time of the i-th
    first-batch file into the start accumulator and the end time of the i-th
    last-batch file into the end accumulator (the two fields are
    updated independently, as in the C). -/
def obsStep (acc : ObsTimes) (p : GpuboxFileTimes × GpuboxFileTimes) : ObsTimes :=
  ⟨maxStep acc.start_time_milliseconds (startVal p.1),
   minStepC acc.end_time_milliseconds (endVal p.2)⟩

/-- determine_obs_times (gpubox.c lines 219-308).  The loop bound
    gpubox_filename_count / gpubox_batch_count is the per-batch file count
    (determine_gpubox_batches has already enforced equal batch sizes), and
    iteration i reads gpubox_ptr_batches[0][i] for the start and
    gpubox_ptr_batches[gpubox_batch_count - 1][i] for the end, i.e. the two
    lists are walked in lockstep; both accumulators start at 0 (lines
    243-244). -/
def determine_obs_times (batch0 batchLast : List GpuboxFileTimes) : ObsTimes :=
  (batch0.zip batchLast).foldl obsStep ⟨0, 0⟩

/-- A legacy batched file set with five batch-0 files and four batch-1 files
    (the mismatched-batch scenario from the spec). -/
def c4Files : List GpuboxFilename :=
  [⟨"1065880128_20131015134830_gpubox01_00.fits", .newFmt 0⟩,
   ⟨"1065880128_20131015134830_gpubox02_00.fits", .newFmt 0⟩,
   ⟨"1065880128_20131015134830_gpubox03_00.fits", .newFmt 0⟩,
   ⟨"1065880128_20131015134830_gpubox04_00.fits", .newFmt 0⟩,
   ⟨"1065880128_20131015134830_gpubox05_00.fits", .newFmt 0⟩,
   ⟨"1065880128_20131015134930_gpubox01_01.fits", .newFmt 1⟩,
   ⟨"1065880128_20131015134930_gpubox02_01.fits", .newFmt 1⟩,
   ⟨"1065880128_20131015134930_gpubox03_01.fits", .newFmt 1⟩,
   ⟨"1065880128_20131015134930_gpubox04_01.fits", .newFmt 1⟩]

/-- A metafits declaring two coarse channels, for a consistent two-file run. -/
def c5M : Metafits := ⟨1303162952, 4, "109,110"⟩

/-- Two batch-0 gpubox files matching the two channels declared by c5M. -/
def c5Files : List GpuboxFilename :=
  [⟨"1303162952_20210425213000_gpubox01_00.fits", .newFmt 0⟩,
   ⟨"1303162952_20210425213000_gpubox02_00.fits", .newFmt 0⟩]

/-- The context process_args builds for c5M and c5Files. -/
def c5Ctx : ObsContextPart :=
  { obsid := 1303162952, num_pols := 4, num_baselines := 1,
    gpubox_filename_count := 2, gpubox_batch_count := 1,
    num_coarse_channels := 2, coarse_channels := [109, 110] }

/-- A metafits whose CHANNELS keyword declares 24 coarse channels. -/
def c6Metafits : Metafits :=
  ⟨1303162952, 256,
   "109,110,111,112,113,114,115,116,117,118,119,120,121,122,123,124,125,126,127,128,129,130,131,132"⟩

/-- Data files for only three receiver channels (121, 122, 123) of the 24
    declared by c6Metafits. -/
def c6Files : List GpuboxFilename :=
  [⟨"1303162952_20210425213000_gpubox121_00.fits", .newFmt 0⟩,
   ⟨"1303162952_20210425213000_gpubox122_00.fits", .newFmt 0⟩,
   ⟨"1303162952_20210425213000_gpubox123_00.fits", .newFmt 0⟩]

/-- An old-format file followed by a new-format file: a mixed-format set. -/
def c7Pre : List GpuboxFilename := [⟨"1065880128_20131015134830_gpubox01.fits", .oldFmt⟩]

/-- The offending new-format file of the mixed set. -/
def c7File : GpuboxFilename := ⟨"1065880128_20131015134930_gpubox02_00.fits", .newFmt 0⟩

/-- First-batch per-file (TIME, MILLITIM) fixtures: the second file starts
    later (at 101.500 s) than the first (at 100.000 s). -/
def c2Batch0 : List GpuboxFileTimes := [⟨100, 0, 0, 0⟩, ⟨101, 500, 0, 0⟩]

/-- Last-batch per-file fixtures: the second file ends earlier (at 199.999 s)
    than the first (at 200.000 s). -/
def c2BatchLast : List GpuboxFileTimes := [⟨0, 0, 200, 0⟩, ⟨0, 0, 199, 999⟩]

/-- Claim C10: the fixed legacy PFB reordering table PFB_MAP is a permutation
    of the integers 0..63: it has exactly 64 entries, every entry lies in
    [0, 63], and all entries are pairwise distinct (the legacy
    hardware-slot-to-ordinal translation is a bijection). -/
theorem c10_pfb_map_permutation :
    PFB_MAP.length = 64 ∧ (∀ x ∈ PFB_MAP, x < 64) ∧ PFB_MAP.Nodup := by
  refine ⟨by decide, by decide, by decide⟩

/-- Claim C1 (code bug): for a metafits declaring NINPUTS = 256 rf-inputs
    (N = 128 antennas), args.c line 166 computes num_baselines =
    (N / 2) * (N - 1) = 8128 — cross-correlations only — whereas the claim
    (and the gpubox.c determine_num_scans baseline factor of this same repository
    (num_ants + 1) * num_ants / 2, as well as the include/mwalib.h description
    of num_baselines as "autos plus cross correlations") requires
    N * (N + 1) / 2 = 8256. -/
theorem c1_baseline_count_code_bug :
    numBaselinesArgs 256 = 8128 ∧
    scan_size 1 1 128 = 4 * (128 * (128 + 1) / 2) ∧
    numBaselinesArgs 256 ≠ 128 * (128 + 1) / 2 := by
  refine ⟨by decide, by decide, by decide⟩

/-- Claim C3 (code bug): the failure path for a gpubox filename of length 3000
    matching neither naming format writes 2075 bytes into the caller-supplied
    errorMessage buffer of declared length MWALIB_ERROR_MESSAGE_LEN = 2048:
    the snprintf of gpubox.c line 113 truncates the message to 2047 characters plus
    NUL, after which the unbounded sprintf of args.c line 198 appends the 27
    characters of " (determine_gpubox_batches)" plus NUL starting at offset
    2047 — 27 + 1 bytes past the declared length. -/
theorem c3_error_message_overflow :
    processArgsBatchFailBytesTouched 3000 = 2075 ∧
    MWALIB_ERROR_MESSAGE_LEN < 2075 := by
  refine ⟨by decide, by decide⟩

/-- Claim C9: in the mwalib-print-context.c "last valid index" ternary
    0 ? count == 0 : count - 1, the count == 0 branch is never taken: for
    every size_t count the result is count - 1 modulo 2^64, so an empty
    collection (count = 0) yields 2^64 - 1 by unsigned wraparound rather than
    a distinct empty-collection error, and a nonempty collection yields the
    ordinary count - 1. -/
theorem c9_last_index_wraparound (count : Nat) (h : count < 2 ^ 64) :
    lastValidIndex count = (count + (2 ^ 64 - 1)) % 2 ^ 64 ∧
    (count = 0 → lastValidIndex count = 2 ^ 64 - 1) ∧
    (0 < count → lastValidIndex count = count - 1) := by
  have hpow : (2 : Nat) ^ 64 = 18446744073709551616 := by norm_num
  have hdef : lastValidIndex count = (count + (2 ^ 64 - 1)) % 2 ^ 64 := by
    simp [lastValidIndex]
  refine ⟨hdef, ?_, ?_⟩
  · intro h0
    rw [hdef, h0, hpow]
  · intro hpos
    rw [hdef, hpow]
    rw [hpow] at h
    omega

/-- Witness for C9 at the empty-collection input count = 0. -/
theorem c9_last_index_witness :
    0 < 2 ^ 64 ∧ lastValidIndex 0 = (0 + (2 ^ 64 - 1)) % 2 ^ 64 := by
  exact ⟨by decide, (c9_last_index_wraparound 0 (by decide)).1⟩

/-- If every token parses, the fitsreader.c token loop returns all parsed
    values in order. -/
theorem parseAll_eq_some (ts : List (List Char))
    (h : ∀ t ∈ ts, (parseCInt t).isSome = true) :
    parseAll ts = some (ts.filterMap parseCInt) := by
  induction ts with
  | nil => rfl
  | cons t ts ih =>
      have ht : (parseCInt t).isSome = true := h t (by simp)
      obtain ⟨v, hv⟩ := Option.isSome_iff_exists.mp ht
      have hrest := ih (fun u hu => h u (List.mem_cons_of_mem _ hu))
      simp [parseAll, hv, hrest, List.filterMap_cons]

/-- If some token fails to parse, the fitsreader.c token loop fails. -/
theorem parseAll_eq_none (ts : List (List Char))
    (h : ∃ t ∈ ts, parseCInt t = none) :
    parseAll ts = none := by
  induction ts with
  | nil => simp at h
  | cons t ts ih =>
      rcases h with ⟨u, hu, hnone⟩
      rcases List.mem_cons.mp hu with rfl | hmem
      · simp [parseAll, hnone]
      · have hrest := ih ⟨u, hmem, hnone⟩
        cases hpt : parseCInt t <;> simp [parseAll, hpt, hrest]

/-- Claim C8: get_fits_comma_delimited_ints splits the raw keyword string on
    ',', ' ' and '@'; it succeeds iff every resulting token parses as a
    base-10 integer under the sscanf %d rules, in which case the output count
    equals the number of tokens and the output array holds the parsed integers
    in order; any unparsable token yields a hard failure (count valid only on
    full success); and a raw string longer than the caller-declared buffer
    size is a distinct hard failure rather than silent truncation.  The
    incoming *int_count value is 0 (the intended incoming value from the caller). -/
theorem c8_comma_delimited_ints_contract (keyword raw : String) (stringSize : Nat) :
    (raw.length > stringSize →
      get_fits_comma_delimited_ints keyword stringSize raw 0 =
        .error (overlongMsg keyword stringSize)) ∧
    (raw.length ≤ stringSize →
      (∀ t ∈ splitTokens raw, (parseCInt t).isSome = true) →
      get_fits_comma_delimited_ints keyword stringSize raw 0 =
        .ok ((splitTokens raw).length, (splitTokens raw).filterMap parseCInt)) ∧
    (raw.length ≤ stringSize →
      (∃ t ∈ splitTokens raw, parseCInt t = none) →
      get_fits_comma_delimited_ints keyword stringSize raw 0 = .error parseFailMsg) := by
  refine ⟨?_, ?_, ?_⟩
  · intro hgt
    simp [get_fits_comma_delimited_ints, hgt]
  · intro hle hall
    have hnot : ¬ raw.length > stringSize := by omega
    simp [get_fits_comma_delimited_ints, hnot, parseAll_eq_some _ hall]
  · intro hle hex
    have hnot : ¬ raw.length > stringSize := by omega
    simp [get_fits_comma_delimited_ints, hnot, parseAll_eq_none _ hex]

/-- Witness for C8 on the raw string "1,2@3" with declared size 1023. -/
theorem c8_comma_delimited_witness :
    ("1,2@3".length ≤ 1023) ∧
    (∀ t ∈ splitTokens "1,2@3", (parseCInt t).isSome = true) ∧
    get_fits_comma_delimited_ints "CHANNELS" 1023 "1,2@3" 0 =
      .ok ((splitTokens "1,2@3").length, (splitTokens "1,2@3").filterMap parseCInt) := by
  refine ⟨by decide, by decide, ?_⟩
  exact (c8_comma_delimited_ints_contract "CHANNELS" "1,2@3" 1023).2.1 (by decide) (by decide)

/-- Claim C5: context construction is a hard failure whenever the number of
    supplied gpubox files divided by the number of batches differs from the
    channel count parsed from the metadata CHANNELS keyword: no successful
    process_args run ever exhibits the mismatch (first conjunct), and whenever
    the validation of args.c lines 220-228 is reached with a mismatch, the
    specific hard error is returned (second conjunct). -/
theorem c5_channel_count_mismatch (mf : String) (m : Metafits)
    (files : List GpuboxFilename) :
    (∀ ctx, process_args mf m files = .ok ctx →
      ctx.gpubox_filename_count / ctx.gpubox_batch_count = ctx.num_coarse_channels) ∧
    (∀ nbatches count chans,
      mf.length ≠ 0 → files.length ≠ 0 →
      determine_gpubox_batches files = .ok nbatches →
      get_fits_comma_delimited_ints "CHANNELS" 1023 m.channelsRaw 0 = .ok (count, chans) →
      files.length / nbatches ≠ count →
      process_args mf m files = .error channelMismatchMsg) := by
  constructor
  · intro ctx h
    unfold process_args at h
    by_cases h1 : mf.length = 0
    · simp [h1] at h
    by_cases h2 : files.length = 0
    · simp [h1, h2] at h
    simp only [h1, h2, if_false] at h
    cases hdb : determine_gpubox_batches files with
    | error e => rw [hdb] at h; simp at h
    | ok nb =>
        rw [hdb] at h
        cases hch : get_fits_comma_delimited_ints "CHANNELS" 1023 m.channelsRaw 0 with
        | error e => rw [hch] at h; simp at h
        | ok p =>
            rw [hch] at h
            obtain ⟨count, chans⟩ := p
            by_cases hne : files.length / nb ≠ count
            · simp [hne] at h
            · simp only [hne, if_false] at h
              have hctx := Except.ok.inj h
              rw [← hctx]
              simpa using hne
  · intro nbatches count chans hmf hfl hdb hch hne
    unfold process_args
    simp [hmf, hfl, hdb, hch, hne]

/-- Witness for C5: a consistent two-file, one-batch, two-channel run
    succeeds, and its context satisfies files / batches = channel count. -/
theorem c5_channel_count_witness :
    process_args "1303162952.metafits" c5M c5Files = .ok c5Ctx ∧
    c5Ctx.gpubox_filename_count / c5Ctx.gpubox_batch_count = c5Ctx.num_coarse_channels := by
  have h : process_args "1303162952.metafits" c5M c5Files = .ok c5Ctx := by decide
  exact ⟨h, (c5_channel_count_mismatch "1303162952.metafits" c5M c5Files).1 c5Ctx h⟩

/-- Claim C6 counterexample: with a metafits declaring 24 coarse channels and
    data files supplied for only the three receiver channels 121, 122, 123,
    context construction does NOT succeed with num_coarse_channels = 3 — it
    fails outright, because args.c sets num_coarse_channels from the declared
    CHANNELS list (24) and then rejects the set since 3 files / 1 batch ≠ 24
    (the very check claim C5 confirms). -/
theorem c6_scenario_counterexample :
    ¬ ∃ ctx, process_args "1303162952.metafits" c6Metafits c6Files = .ok ctx ∧
      ctx.num_coarse_channels = 3 := by
  have h : process_args "1303162952.metafits" c6Metafits c6Files =
      .error channelMismatchMsg := by decide
  rintro ⟨ctx, hok, _⟩
  rw [h] at hok
  exact Except.noConfusion hok

/-- Claim C6 as amended: for the 24-declared / 3-provided scenario the
    CHANNELS keyword parses to the declared 24 channels, and construction
    fails with the gpubox-files/coarse-channel-count mismatch error — the
    provided set is never adopted as num_coarse_channels. -/
theorem c6_scenario_amended :
    get_fits_comma_delimited_ints "CHANNELS" 1023 c6Metafits.channelsRaw 0 =
      .ok (24, [109, 110, 111, 112, 113, 114, 115, 116, 117, 118, 119, 120, 121,
                122, 123, 124, 125, 126, 127, 128, 129, 130, 131, 132]) ∧
    c6Files.length = 3 ∧
    process_args "1303162952.metafits" c6Metafits c6Files = .error channelMismatchMsg := by
  refine ⟨by decide, by decide, by decide⟩

/-- Invariant of the gpubox.c scanning loop over an all-new-format file list
    started from a state whose format variable is unset (0) or new (2): the
    loop succeeds, gpubox_batch_count accumulates the largest batch number
    seen, and batch_counts[i] grows by the number of files carrying batch
    number i. -/
theorem scanFiles_all_new (fs : List GpuboxFilename) :
    ∀ st : BatchScan, (∀ f ∈ fs, isNewFmt f = true) → (st.format = 0 ∨ st.format = 2) →
    ∃ st2, scanFiles st fs = Except.ok st2 ∧
      st2.batchCount = fs.foldl (fun a f => if batchOf f > a then batchOf f else a) st.batchCount ∧
      (∀ i, st2.counts i = st.counts i + batchFileCount fs i) ∧
      (st2.format = 0 ∨ st2.format = 2) := by
  induction fs with
  | nil =>
      intro st hall hfmt
      exact ⟨st, rfl, rfl, fun i => by simp [batchFileCount], hfmt⟩
  | cons f rest ih =>
      intro st hall hfmt
      obtain ⟨raw, parse⟩ := f
      cases parse with
      | oldFmt =>
          have := hall ⟨raw, .oldFmt⟩ (by simp)
          simp [isNewFmt] at this
      | bad =>
          have := hall ⟨raw, .bad⟩ (by simp)
          simp [isNewFmt] at this
      | newFmt b =>
          have hstep : scanStep st ⟨raw, .newFmt b⟩ =
              Except.ok ⟨if b > st.batchCount then b else st.batchCount, 2, b,
                fun i => if i = b then st.counts i + 1 else st.counts i⟩ := by
            rcases hfmt with h0 | h2
            · simp [scanStep, h0]
            · simp [scanStep, h2]
          obtain ⟨st2, hrun, hbc, hcnt, hfmt2⟩ :=
            ih ⟨if b > st.batchCount then b else st.batchCount, 2, b,
                fun i => if i = b then st.counts i + 1 else st.counts i⟩
              (fun g hg => hall g (List.mem_cons_of_mem _ hg)) (Or.inr rfl)
          refine ⟨st2, ?_, ?_, ?_, hfmt2⟩
          · simpa [scanFiles, hstep] using hrun
          · simpa [batchOf] using hbc
          · intro i
            rw [hcnt i]
            by_cases hib : i = b
            · subst hib
              simp [batchFileCount, List.countP_cons, batchOf]
              omega
            · have hbeq : (b == i) = false := beq_eq_false_iff_ne.mpr (Ne.symm hib)
              simp [batchFileCount, List.countP_cons, batchOf, hib, hbeq]

/-- Claim C4: for a legacy-format (batched) gpubox file set in which some
    batch b > 0 holds a different number of files than batch 0, construction
    fails, and the error message names a mismatched batch index together with
    both file counts (that of batch 0 and that of batch i), formatted as in gpubox.c
    lines 179-181.  The hypothesis that all batch numbers lie below
    MWALIB_MAX_GPUBOX_BATCHES keeps the model inside the regime where the C
    batch_counts array is not overrun. -/
theorem c4_batch_count_mismatch (fs : List GpuboxFilename)
    (hall : ∀ f ∈ fs, isNewFmt f = true)
    ( hbound : ∀ f ∈ fs, batchOf f < MWALIB_MAX_GPUBOX_BATCHES)
    (b : Nat) (hb : 0 < b) (hble : b ≤ maxBatchOf fs)
    (hmis : batchFileCount fs b ≠ batchFileCount fs 0) :
    ∃ i, 0 < i ∧ i ≤ maxBatchOf fs ∧ batchFileCount fs i ≠ batchFileCount fs 0 ∧
      determine_gpubox_batches fs =
        .error (batchMismatchMsg (batchFileCount fs 0) (batchFileCount fs i) i) := by
  obtain ⟨st2, hrun, hbc, hcnt, _⟩ :=
    scanFiles_all_new fs ⟨0, 0, 0, fun _ => 0⟩ hall (Or.inl rfl)
  have hcounts : ∀ i, st2.counts i = batchFileCount fs i := by
    intro i
    rw [hcnt i]
    simp
  have hbc2 : st2.batchCount = maxBatchOf fs := hbc
  have hpb : (fun i => decide (0 < i) && decide (st2.counts i ≠ st2.counts 0)) b = true := by
    simp [hcounts, hb, hmis]
  have hbmem : b ∈ List.range (st2.batchCount + 1) := by
    rw [hbc2]
    exact List.mem_range.mpr (by omega)
  cases hfind : (List.range (st2.batchCount + 1)).find?
      (fun i => decide (0 < i) && decide (st2.counts i ≠ st2.counts 0)) with
  | none =>
      exact absurd hpb (List.find?_eq_none.mp hfind b hbmem)
  | some i =>
      have hpi := List.find?_some hfind
      have hilt : i < st2.batchCount + 1 := List.mem_range.mp (List.mem_of_find?_eq_some hfind)
      simp only [Bool.and_eq_true, decide_eq_true_eq] at hpi
      refine ⟨i, hpi.1, by omega, ?_, ?_⟩
      · rw [← hcounts i, ← hcounts 0]
        exact hpi.2
      · unfold determine_gpubox_batches
        rw [hrun]
        simp only [hcounts] at hfind
        simp only [checkBatchCounts, hcounts, hfind]

/-- Witness for C4 on the spec scenario: five batch-0 files and four batch-1
    files make construction fail with a message naming batch 01 and the
    counts 5 and 4. -/
theorem c4_batch_count_witness :
    (∀ f ∈ c4Files, isNewFmt f = true) ∧
    (0 < 1 ∧ 1 ≤ maxBatchOf c4Files ∧ batchFileCount c4Files 1 ≠ batchFileCount c4Files 0) ∧
    ∃ i, 0 < i ∧ i ≤ maxBatchOf c4Files ∧
      batchFileCount c4Files i ≠ batchFileCount c4Files 0 ∧
      determine_gpubox_batches c4Files =
        .error (batchMismatchMsg (batchFileCount c4Files 0) (batchFileCount c4Files i) i) := by
  refine ⟨by decide, ⟨by decide, by decide, by decide⟩, ?_⟩
  exact c4_batch_count_mismatch c4Files (by decide) (by decide) 1 (by decide) (by decide) (by decide)

/-- The scanning loop over a concatenation runs the first part and, if that
    succeeded, continues with the second from the resulting state. -/
theorem scanFiles_append (l1 l2 : List GpuboxFilename) :
    ∀ st, scanFiles st (l1 ++ l2) =
      match scanFiles st l1 with
      | .error e => .error e
      | .ok st2 => scanFiles st2 l2 := by
  induction l1 with
  | nil => intro st; rfl
  | cons g l1 ih =>
      intro st
      show scanFiles st (g :: (l1 ++ l2)) = _
      cases hstep : scanStep st g with
      | error e => simp [scanFiles, hstep]
      | ok st1 => simp [scanFiles, hstep, ih st1]

/-- Invariant of the scanning loop over a prefix of parsable files that agree
    on one format code c: the loop succeeds, and afterwards the format
    variable is c whenever the prefix is nonempty (and still 0 or c in
    general). -/
theorem scanFiles_consistent (c : Nat) (pre : List GpuboxFilename) :
    ∀ st : BatchScan, (∀ g ∈ pre, isBad g = false ∧ fmtCode g = c) →
    (st.format = 0 ∨ st.format = c) →
    ∃ st2, scanFiles st pre = Except.ok st2 ∧
      (st2.format = 0 ∨ st2.format = c) ∧
      (st.format = c → st2.format = c) ∧
      (pre ≠ [] → st2.format = c) := by
  induction pre with
  | nil =>
      intro st _ hfmt
      exact ⟨st, rfl, hfmt, fun h => h, fun h => absurd rfl h⟩
  | cons g rest ih =>
      intro st hpre hfmt
      obtain ⟨hg1, hg2⟩ := hpre g (by simp)
      obtain ⟨raw, parse⟩ := g
      cases parse with
      | bad => simp [isBad] at hg1
      | newFmt b =>
          have hc : c = 2 := by simpa [fmtCode] using hg2.symm
          subst hc
          have hstep : scanStep st ⟨raw, .newFmt b⟩ =
              Except.ok ⟨if b > st.batchCount then b else st.batchCount, 2, b,
                fun i => if i = b then st.counts i + 1 else st.counts i⟩ := by
            rcases hfmt with h0 | h2
            · simp [scanStep, h0]
            · simp [scanStep, h2]
          obtain ⟨st2, hrun, hf2, hfc, _⟩ :=
            ih ⟨if b > st.batchCount then b else st.batchCount, 2, b,
                fun i => if i = b then st.counts i + 1 else st.counts i⟩
              (fun u hu => hpre u (List.mem_cons_of_mem _ hu)) (Or.inr rfl)
          exact ⟨st2, by simpa [scanFiles, hstep] using hrun, hf2,
            fun _ => hfc rfl, fun _ => hfc rfl⟩
      | oldFmt =>
          have hc : c = 1 := by simpa [fmtCode] using hg2.symm
          subst hc
          have hstep : scanStep st ⟨raw, .oldFmt⟩ =
              Except.ok ⟨st.batchCount, 1, st.batch,
                fun i => if i = st.batch then st.counts i + 1 else st.counts i⟩ := by
            rcases hfmt with h0 | h1
            · simp [scanStep, h0]
            · simp [scanStep, h1]
          obtain ⟨st2, hrun, hf2, hfc, _⟩ :=
            ih ⟨st.batchCount, 1, st.batch,
                fun i => if i = st.batch then st.counts i + 1 else st.counts i⟩
              (fun u hu => hpre u (List.mem_cons_of_mem _ hu)) (Or.inr rfl)
          exact ⟨st2, by simpa [scanFiles, hstep] using hrun, hf2,
            fun _ => hfc rfl, fun _ => hfc rfl⟩

/-- Claim C7: in one reconciliation, a gpubox filename that matches a
    different naming format (with vs without batch suffix) than the format
    established by the parsable files before it makes construction fail with
    an error message naming the offending file, and a filename matching
    neither format is likewise a failure naming that file — no mixed-format
    file set is ever accepted. -/
theorem c7_mixed_or_unrecognised (pre post : List GpuboxFilename)
    (f : GpuboxFilename) (c : Nat)
    (hpre : ∀ g ∈ pre, isBad g = false ∧ fmtCode g = c)
    (hoff : isBad f = true ∨ (pre ≠ [] ∧ isBad f = false ∧ fmtCode f ≠ c)) :
    ∃ msgA msgB, determine_gpubox_batches (pre ++ f :: post) =
      .error (msgA ++ f.raw ++ msgB) := by
  obtain ⟨st2, hrun, hf2, _, hfne⟩ :=
    scanFiles_consistent c pre ⟨0, 0, 0, fun _ => 0⟩ hpre (Or.inl rfl)
  have herr : ∃ msgA msgB, scanStep st2 f = Except.error (msgA ++ f.raw ++ msgB) := by
    rcases hoff with hbad | ⟨hne, hnotbad, hfc⟩
    · obtain ⟨raw, parse⟩ := f
      cases parse with
      | bad => exact ⟨batchNumberFailHead, "", by simp [scanStep, badNameMsg]⟩
      | newFmt b => simp [isBad] at hbad
      | oldFmt => simp [isBad] at hbad
    · have hc12 : c = 1 ∨ c = 2 := by
        cases pre with
        | nil => exact absurd rfl hne
        | cons g0 rest0 =>
            obtain ⟨hb0, hf0⟩ := hpre g0 (by simp)
            obtain ⟨r0, p0⟩ := g0
            cases p0 with
            | bad => simp [isBad] at hb0
            | newFmt b0 => exact Or.inr (by simpa [fmtCode] using hf0.symm)
            | oldFmt => exact Or.inl (by simpa [fmtCode] using hf0.symm)
      have hfmt2 : st2.format = c := hfne hne
      obtain ⟨raw, parse⟩ := f
      cases parse with
      | bad => simp [isBad] at hnotbad
      | newFmt b =>
          have hc1 : c = 1 := by
            rcases hc12 with h | h
            · exact h
            · exact absurd (by simp [fmtCode, h]) hfc
          refine ⟨"The batch number format of ", " disagrees with other gpubox files!", ?_⟩
          rw [hc1] at hfmt2
          simp [scanStep, hfmt2, formatMismatchMsg]
      | oldFmt =>
          have hc2 : c = 2 := by
            rcases hc12 with h | h
            · exact absurd (by simp [fmtCode, h]) hfc
            · exact h
          refine ⟨"The batch number format of ", " disagrees with other gpubox files!", ?_⟩
          rw [hc2] at hfmt2
          simp [scanStep, hfmt2, formatMismatchMsg]
  obtain ⟨msgA, msgB, hstep⟩ := herr
  refine ⟨msgA, msgB, ?_⟩
  unfold determine_gpubox_batches
  rw [scanFiles_append pre (f :: post)]
  rw [hrun]
  simp only [scanFiles, hstep]

/-- Witness for C7: an old-format file followed by a new-format file fails,
    with the message naming the new-format file. -/
theorem c7_mixed_format_witness :
    (∀ g ∈ c7Pre, isBad g = false ∧ fmtCode g = 1) ∧
    (c7Pre ≠ [] ∧ isBad c7File = false ∧ fmtCode c7File ≠ 1) ∧
    ∃ msgA msgB, determine_gpubox_batches (c7Pre ++ c7File :: []) =
      .error (msgA ++ c7File.raw ++ msgB) := by
  refine ⟨by decide, ⟨by decide, by decide, by decide⟩, ?_⟩
  exact c7_mixed_or_unrecognised c7Pre [] c7File 1 (by decide)
    (Or.inr ⟨by decide, by decide, by decide⟩)

/-- The determine_obs_times fold updates its two accumulators independently:
    the start field folds maxStep over the first-batch start times and the end
    field folds minStepC over the last-batch end times. -/
theorem obs_fold_decompose (ps : List (GpuboxFileTimes × GpuboxFileTimes)) :
    ∀ a e : Int, ps.foldl obsStep ⟨a, e⟩ =
      ⟨(ps.map fun p => startVal p.1).foldl maxStep a,
       (ps.map fun p => endVal p.2).foldl minStepC e⟩ := by
  induction ps with
  | nil => intro a e; rfl
  | cons p ps ih =>
      intro a e
      simp only [List.foldl_cons, List.map_cons]
      exact ih (maxStep a (startVal p.1)) (minStepC e (endVal p.2))

/-- Folding maxStep never drops below the seed, dominates every list element,
    and lands on the seed or on a list element. -/
theorem foldl_maxStep_general (l : List Int) :
    ∀ a : Int, a ≤ l.foldl maxStep a ∧ (∀ x ∈ l, x ≤ l.foldl maxStep a) ∧
      (l.foldl maxStep a = a ∨ l.foldl maxStep a ∈ l) := by
  induction l with
  | nil => intro a; exact ⟨le_refl a, by simp, Or.inl rfl⟩
  | cons y l ih =>
      intro a
      obtain ⟨h1, h2, h3⟩ := ih (maxStep a y)
      have hay : a ≤ maxStep a y ∧ y ≤ maxStep a y := by
        unfold maxStep
        split <;> constructor <;> omega
      refine ⟨le_trans hay.1 h1, ?_, ?_⟩
      · intro x hx
        rcases List.mem_cons.mp hx with rfl | hmem
        · exact le_trans hay.2 h1
        · exact h2 x hmem
      · rcases h3 with heq | hmem
        · rw [List.foldl_cons, heq]
          unfold maxStep
          split
          · exact Or.inr (by simp)
          · exact Or.inl rfl
        · exact Or.inr (List.mem_cons_of_mem _ hmem)

/-- Starting from the 0 seed of gpubox.c line 243, over a nonempty list of
    nonnegative start times, the maxStep fold computes exactly the maximum:
    it is an element of the list and dominates every element. -/
theorem foldl_maxStep_from_zero (l : List Int) (hne : l ≠ [])
    (hnn : ∀ x ∈ l, 0 ≤ x) :
    l.foldl maxStep 0 ∈ l ∧ ∀ x ∈ l, x ≤ l.foldl maxStep 0 := by
  obtain ⟨h1, h2, h3⟩ := foldl_maxStep_general l 0
  rcases h3 with heq | hmem
  · cases l with
    | nil => exact absurd rfl hne
    | cons y l =>
        have hy0 : y ≤ 0 := by
          have hh := h2 y (by simp)
          rwa [heq] at hh
        have h0y : 0 ≤ y := hnn y (by simp)
        have hy : y = 0 := le_antisymm hy0 h0y
        constructor
        · rw [heq, ← hy]
          simp
        · exact h2
  · exact ⟨hmem, h2⟩

/-- Once the minStepC accumulator is positive and all list elements are
    positive, the 0 sentinel never re-triggers and the fold computes the
    minimum of the seed and the elements. -/
theorem foldl_minStepC_pos (l : List Int) :
    ∀ a : Int, 0 < a → (∀ x ∈ l, 0 < x) →
      (l.foldl minStepC a = a ∨ l.foldl minStepC a ∈ l) ∧
      l.foldl minStepC a ≤ a ∧ (∀ x ∈ l, l.foldl minStepC a ≤ x) ∧
      0 < l.foldl minStepC a := by
  induction l with
  | nil => intro a ha _; exact ⟨Or.inl rfl, le_refl a, by simp, ha⟩
  | cons y l ih =>
      intro a ha hpos
      have hy : 0 < y := hpos y (by simp)
      have hstep : minStepC a y = if y < a then y else a := by
        have ha0 : ¬ a = 0 := by omega
        simp [minStepC, ha0]
      have hma : 0 < minStepC a y := by
        rw [hstep]
        split <;> omega
      obtain ⟨h1, h2, h3, h4⟩ := ih (minStepC a y) hma (fun x hx => hpos x (List.mem_cons_of_mem _ hx))
      have hle_a : minStepC a y ≤ a := by
        rw [hstep]
        split <;> omega
      have hle_y : minStepC a y ≤ y := by
        rw [hstep]
        split <;> omega
      refine ⟨?_, le_trans h2 hle_a, ?_, h4⟩
      · rcases h1 with heq | hmem
        · rw [List.foldl_cons, heq, hstep]
          split
          · exact Or.inr (by simp)
          · exact Or.inl rfl
        · exact Or.inr (List.mem_cons_of_mem _ hmem)
      · intro x hx
        rcases List.mem_cons.mp hx with rfl | hmem
        · exact le_trans h2 hle_y
        · exact h3 x hmem

/-- Starting from the 0 sentinel of gpubox.c line 244, over a nonempty list of
    positive end times, the minStepC fold computes exactly the minimum: it is
    an element of the list and is dominated by every element. -/
theorem foldl_minStepC_from_zero (l : List Int) (hne : l ≠ [])
    (hpos : ∀ x ∈ l, 0 < x) :
    l.foldl minStepC 0 ∈ l ∧ ∀ x ∈ l, l.foldl minStepC 0 ≤ x := by
  cases l with
  | nil => exact absurd rfl hne
  | cons y l =>
      have hy : 0 < y := hpos y (by simp)
      have hfirst : minStepC 0 y = y := by simp [minStepC]
      obtain ⟨h1, h2, h3, _⟩ :=
        foldl_minStepC_pos l y hy (fun x hx => hpos x (List.mem_cons_of_mem _ hx))
      rw [List.foldl_cons, hfirst]
      refine ⟨?_, ?_⟩
      · rcases h1 with heq | hmem
        · rw [heq]; simp
        · exact List.mem_cons_of_mem _ hmem
      · intro x hx
        rcases List.mem_cons.mp hx with rfl | hmem
        · exact h2
        · exact h3 x hmem

/-- Claim C2: for a successful reconciliation over a non-empty batched set
    (equal-sized first and last batches, as determine_gpubox_batches
    guarantees, with the physically sensible positive TIME stamps),
    determine_obs_times sets the observation start to the maximum over all
    first-batch files of TIME * 1000 + MILLITIM read from the first
    HDU of each file, and the end to the minimum over all last-batch files of
    TIME * 1000 + MILLITIM read from the last HDU of each file — the reconciled
    window is the intersection of the per-file time ranges, never the
    union. -/
theorem c2_obs_times_intersection (batch0 batchLast : List GpuboxFileTimes)
    (hne : batch0 ≠ []) (hlen : batch0.length = batchLast.length)
    (hstart : ∀ f ∈ batch0, 0 ≤ startVal f)
    (hend : ∀ f ∈ batchLast, 0 < endVal f) :
    ((determine_obs_times batch0 batchLast).start_time_milliseconds ∈ batch0.map startVal ∧
      ∀ f ∈ batch0, startVal f ≤ (determine_obs_times batch0 batchLast).start_time_milliseconds) ∧
    ((determine_obs_times batch0 batchLast).end_time_milliseconds ∈ batchLast.map endVal ∧
      ∀ f ∈ batchLast, (determine_obs_times batch0 batchLast).end_time_milliseconds ≤ endVal f) := by
  have hfst : (batch0.zip batchLast).map Prod.fst = batch0 :=
    List.map_fst_zip batch0 batchLast (le_of_eq hlen)
  have hsnd : (batch0.zip batchLast).map Prod.snd = batchLast :=
    List.map_snd_zip batch0 batchLast (le_of_eq hlen.symm)
  have hmap1 : ((batch0.zip batchLast).map fun p => startVal p.1) = batch0.map startVal := by
    have hcomp : ((batch0.zip batchLast).map Prod.fst).map startVal =
        (batch0.zip batchLast).map fun p => startVal p.1 := by
      rw [List.map_map]
      rfl
    rw [← hcomp, hfst]
  have hmap2 : ((batch0.zip batchLast).map fun p => endVal p.2) = batchLast.map endVal := by
    have hcomp : ((batch0.zip batchLast).map Prod.snd).map endVal =
        (batch0.zip batchLast).map fun p => endVal p.2 := by
      rw [List.map_map]
      rfl
    rw [← hcomp, hsnd]
  have hdec : determine_obs_times batch0 batchLast =
      ⟨(batch0.map startVal).foldl maxStep 0, (batchLast.map endVal).foldl minStepC 0⟩ := by
    unfold determine_obs_times
    rw [obs_fold_decompose, hmap1, hmap2]
  have hne1 : batch0.map startVal ≠ [] := by
    simpa using hne
  have hne2 : batchLast.map endVal ≠ [] := by
    have : batchLast ≠ [] := by
      intro h
      rw [h] at hlen
      simp at hlen
      exact hne hlen
    simpa using this
  have hnn1 : ∀ x ∈ batch0.map startVal, 0 ≤ x := by
    intro x hx
    obtain ⟨f, hf, rfl⟩ := List.mem_map.mp hx
    exact hstart f hf
  have hpos2 : ∀ x ∈ batchLast.map endVal, 0 < x := by
    intro x hx
    obtain ⟨f, hf, rfl⟩ := List.mem_map.mp hx
    exact hend f hf
  obtain ⟨hmem1, hdom1⟩ := foldl_maxStep_from_zero (batch0.map startVal) hne1 hnn1
  obtain ⟨hmem2, hdom2⟩ := foldl_minStepC_from_zero (batchLast.map endVal) hne2 hpos2
  rw [hdec]
  refine ⟨⟨hmem1, ?_⟩, ⟨hmem2, ?_⟩⟩
  · intro f hf
    exact hdom1 (startVal f) (List.mem_map.mpr ⟨f, hf, rfl⟩)
  · intro f hf
    exact hdom2 (endVal f) (List.mem_map.mpr ⟨f, hf, rfl⟩)

/-- Witness for C2 on a two-file fixture: the start is the later first
    timestamp (101500 ms) and the end is the earlier last timestamp
    (199999 ms). -/
theorem c2_obs_times_witness :
    (c2Batch0 ≠ [] ∧ c2Batch0.length = c2BatchLast.length ∧
      (∀ f ∈ c2Batch0, 0 ≤ startVal f) ∧ (∀ f ∈ c2BatchLast, 0 < endVal f)) ∧
    (((determine_obs_times c2Batch0 c2BatchLast).start_time_milliseconds ∈ c2Batch0.map startVal ∧
      ∀ f ∈ c2Batch0, startVal f ≤ (determine_obs_times c2Batch0 c2BatchLast).start_time_milliseconds) ∧
((determine_obs_times c2Batch0 c2BatchLast).end_time_milliseconds ∈ c2BatchLast.map endVal ∧
      ∀ f ∈ c2BatchLast, (determine_obs_times c2Batch0 c2BatchLast).end_time_milliseconds ≤ endVal f)) := by
  refine ⟨⟨by decide, by decide, by decide, by decide⟩, ?_⟩
  exact c2_obs_times_intersection c2Batch0 c2BatchLast (by decide) (by decide)
    (by decide) (by decide)
